import Mathlib

/-!
Verification of the devnest node-reservation CLI decision logic
(`devnest/lib/cli.py`, `JenkinsNodeShell.main`).

The embedding models the per-action decision logic of `JenkinsNodeShell.main`
for the `reserve`, `extend`, `release`, `group` and `capability` subcommands.
The registry state is a list of `NodeRecord`s; each action either fails with a
`CliError` (the abstract error kinds of the design taxonomy, one per
`CommandError` raise site of `cli.py`) or returns the post-state together with
the action's payload.  Node-level operations (`devnest/lib/node.py`) and
node fetching (`devnest/lib/jenkins.py`) are not part of the sources under
verification; those are modelled from the specification and marked as such.
-/

namespace Devnest

/-- Modelled from the spec: the `NodeStatus` enumeration of
`devnest/lib/node.py` (not under `src/`), §3 of the design:
{ONLINE, OFFLINE, JOB_RUNNING, RESERVED, REPROVISION_PENDING, UNKNOWN}. -/
inductive NodeStatus where
  | online : NodeStatus
  | offline : NodeStatus
  | jobRunning : NodeStatus
  | reserved : NodeStatus
  | reprovisionPending : NodeStatus
  | unknown : NodeStatus
deriving DecidableEq, Repr

/-- Modelled from the spec: the reservation metadata carried by a node
(`devnest/lib/node.py` is not under `src/`); §3: owner identity string and
creation/expiry timestamps (hours, as used by the CLI's `--time`). -/
structure ReservationState where
  owner : String
  createdAt : Nat
  expiresAt : Nat
deriving DecidableEq, Repr

/-- Modelled from the spec: the in-memory node record of
`devnest/lib/node.py` (not under `src/`), §3: name, status, nest/group
labels, open capability mapping and an optional reservation. -/
structure NodeRecord where
  name : String
  status : NodeStatus
  groups : List String
  capabilities : List (String × String)
  reservation : Option ReservationState
deriving DecidableEq, Repr

/-- The reservation info returned by a successful reserve
(owner, node name, expiry), printed as json by `cli.py` line 432-433. -/
structure ReserveInfo where
  owner : String
  node : String
  expiresAt : Nat
deriving DecidableEq, Repr

/-- Abstract error kinds for the `CommandError` raise sites of
`JenkinsNodeShell.main` (§7 taxonomy): `cardinality` for the
"Found N nodes" checks (carrying the count and, when more than one,
the candidate names), `conflictJobRunning` / `conflictNotOnline` for the
reserve status checks, `ownership` for the release/extend owner check. -/
inductive CliError where
  | cardinality (count : Nat) (candidates : List String) : CliError
  | conflictJobRunning (node : String) : CliError
  | conflictNotOnline (node : String) (status : NodeStatus) : CliError
  | ownership (node : String) (owner : Option String) : CliError
deriving DecidableEq, Repr

/-- Regex matching of a node name: the CLI's `node_regex` is `None`
(match everything) or a pattern; the pattern itself is abstracted as a
boolean predicate on names (unanchored matching is the collaborator's
concern, §4.1). -/
def matchesPat (pattern : Option (String → Bool)) (name : String) : Bool :=
  match pattern with
  | none => true
  | some p => p name

/-- Selection predicate of one node: the name must match the regex and,
when a nest/group restriction is given, the node's groups must contain it
(`group = None` bypasses the nest restriction, §4.1). -/
def selects (pattern : Option (String → Bool)) (group : Option String)
    (n : NodeRecord) : Bool :=
  matchesPat pattern n.name &&
    (match group with
     | none => true
     | some g => n.groups.contains g)

/-- Modelled from the spec: `JenkinsInstance.get_nodes(regex, group)` of
`devnest/lib/jenkins.py` (not under `src/`), §4.1 `NodeSelector.select`:
all fetched nodes whose name matches the regex and, unless the nest
restriction is bypassed with `group = None`, whose groups contain the
requested nest.  Ordering is the fetch order. -/
def getNodes (pattern : Option (String → Bool)) (group : Option String)
    (nodes : List NodeRecord) : List NodeRecord :=
  nodes.filter (selects pattern group)

/-- Modelled from the spec: `Node.get_reservation_owner` of
`devnest/lib/node.py` (not under `src/`): the owner recorded in the node's
reservation metadata; a node with no active reservation has no owner
(§3: `reservation` is optional, `owner` is a field of it). -/
def NodeRecord.get_reservation_owner (n : NodeRecord) : Option String :=
  n.reservation.map (fun r => r.owner)

/-- Modelled from the spec: `Node.reserve(time, owner, force_reserve)` of
`devnest/lib/node.py` (not under `src/`), §4.2: creates a
`ReservationState` with the explicit owner or the acting identity and
`expires_at = now + duration_hours`; the node becomes `RESERVED`, except
that a (force-reserved) `JOB_RUNNING` node keeps its externally observed
status; returns the reservation info (owner, node name, expiry). -/
def NodeRecord.reserve (n : NodeRecord) (now durationHours : Nat)
    (owner : Option String) (acting : String) (forceReserve : Bool) :
    NodeRecord × ReserveInfo :=
  let resOwner := owner.getD acting
  let newStatus :=
    if n.status = NodeStatus.jobRunning then n.status else NodeStatus.reserved
  let _ := forceReserve
  ({ n with status := newStatus,
            reservation := some ⟨resOwner, now, now + durationHours⟩ },
   ⟨resOwner, n.name, now + durationHours⟩)

/-- Modelled from the spec: `Node.extend_reservation(time, force)` of
`devnest/lib/node.py` (not under `src/`), §4.2: requires a carried
reservation; without `force`, an acting identity different from the
reservation owner is an `OwnershipError` (case-sensitive exact match);
on success the expiry increases by the requested hours. -/
def NodeRecord.extend_reservation (n : NodeRecord) (hours : Nat)
    (force : Bool) (acting : String) : Except CliError NodeRecord :=
  match n.reservation with
  | some res =>
      if res.owner ≠ acting ∧ force = false then
        Except.error (CliError.ownership n.name (some res.owner))
      else
        Except.ok { n with
          reservation := some { res with expiresAt := res.expiresAt + hours } }
  | none => Except.error (CliError.ownership n.name none)

/-- Modelled from the spec: `Node.clear_reservation(bring_online)` of
`devnest/lib/node.py` (not under `src/`), §4.2: the reservation is
destroyed; the status becomes `ONLINE` when `bring_online` is requested and
is otherwise left to the registry's natural idle state (unchanged here). -/
def NodeRecord.clear_reservation (n : NodeRecord) (bringOnline : Bool) :
    NodeRecord :=
  { n with reservation := none,
           status := if bringOnline then NodeStatus.online else n.status }

/-- Modelled from the spec: `Node.set_reprovision_pending` of
`devnest/lib/node.py` (not under `src/`), §4.2: unconditionally marks the
node for reprovisioning (`REPROVISION_PENDING`). -/
def NodeRecord.set_reprovision_pending (n : NodeRecord) : NodeRecord :=
  { n with status := NodeStatus.reprovisionPending }

/-- Modelled from the spec: `Node.clear_all_groups` of
`devnest/lib/node.py` (not under `src/`), §4.3: empties `groups`. -/
def NodeRecord.clear_all_groups (n : NodeRecord) : NodeRecord :=
  { n with groups := [] }

/-- Modelled from the spec: `Node.update_with_groups` of
`devnest/lib/node.py` (not under `src/`), §4.3: replaces `groups`
wholesale with the provided set. -/
def NodeRecord.update_with_groups (n : NodeRecord) (gs : List String) :
    NodeRecord :=
  { n with groups := gs }

/-- Modelled from the spec: `Node.add_groups` of `devnest/lib/node.py`
(not under `src/`), §4.3: union of existing and provided groups; adding an
existing group is a no-op for that element. -/
def NodeRecord.add_groups (n : NodeRecord) (gs : List String) : NodeRecord :=
  { n with groups := n.groups ++ gs.filter (fun g => ¬ n.groups.contains g) }

/-- Modelled from the spec: `Node.remove_groups` of `devnest/lib/node.py`
(not under `src/`), §4.3: set difference; removing a non-member group is a
no-op for that element. -/
def NodeRecord.remove_groups (n : NodeRecord) (gs : List String) : NodeRecord :=
  { n with groups := n.groups.filter (fun g => ¬ gs.contains g) }

/-- Merge of a capability patch into a capability mapping: every key of the
mapping mentioned in the patch takes the patch's value, keys not mentioned
keep their value, and patch keys new to the mapping are appended. -/
def patchCaps (caps patch : List (String × String)) :
    List (String × String) :=
  caps.map (fun kv =>
      match patch.lookup kv.1 with
      | some v => (kv.1, v)
      | none => kv) ++
    patch.filter (fun kv => (caps.lookup kv.1).isNone)

/-- Modelled from the spec: `Node.update_capabilities(patch)` of
`devnest/lib/node.py` (not under `src/`), §4.4: applies the key→value
patch as a merge, not a replacement; unknown/new keys are accepted. -/
def NodeRecord.update_capabilities (n : NodeRecord)
    (patch : List (String × String)) : NodeRecord :=
  { n with capabilities := patchCaps n.capabilities patch }

/-- The cardinality error raised by the "Found N nodes maching" checks of
`cli.py` (lines 395-401, 439-445, 454-460, 488-494): carries the count
and, only when more than one node matched, the candidate node table. -/
def cardErr (ms : List NodeRecord) : CliError :=
  CliError.cardinality ms.length
    (if ms.length > 1 then ms.map (fun n => n.name) else [])

/-- The single-candidate arity check shared by reserve/extend/release and
the mutating group operations (`len(jenkins_nodes) != 1` in `cli.py`):
continues with the unique candidate, otherwise fails with `cardErr`. -/
def requireOne (ms : List NodeRecord)
    (k : NodeRecord → Except CliError α) : Except CliError α :=
  match ms with
  | [node] => k node
  | ms' => Except.error (cardErr ms')

/-- Post-state of mutating every selected node in place: each node object
satisfying the selection predicate is replaced by its mutated version,
all others are untouched. -/
def applySel (pattern : Option (String → Bool)) (group : Option String)
    (f : NodeRecord → NodeRecord) (nodes : List NodeRecord) :
    List NodeRecord :=
  nodes.map (fun n => if selects pattern group n then f n else n)

/-- Post-state of mutating the unique matched node object: the selected
element is replaced by the updated record. -/
def updateMatched (pattern : Option (String → Bool)) (group : Option String)
    (node' : NodeRecord) (nodes : List NodeRecord) : List NodeRecord :=
  applySel pattern group (fun _ => node') nodes

/-- The `reserve` action of `JenkinsNodeShell.main` (`cli.py` lines
388-433): select candidates with the regex and the nest restriction
(`--all` gives `group = None`), require exactly one; without `--force` a
`JOB_RUNNING` candidate is a conflict (lines 405-418) and so is any
non-`ONLINE` candidate (lines 420-426); otherwise the node is reserved
and the reservation info returned (lines 428-433). -/
def reserveAction (acting : String) (now : Nat)
    (pattern : Option (String → Bool)) (group : Option String)
    (time : Nat) (owner : Option String) (force : Bool)
    (nodes : List NodeRecord) :
    Except CliError (List NodeRecord × ReserveInfo) :=
  requireOne (getNodes pattern group nodes) (fun node =>
    if node.status = NodeStatus.jobRunning ∧ force = false then
      Except.error (CliError.conflictJobRunning node.name)
    else if node.status ≠ NodeStatus.online ∧ force = false then
      Except.error (CliError.conflictNotOnline node.name node.status)
    else
      let r := node.reserve now time owner acting force
      Except.ok (updateMatched pattern group r.1 nodes, r.2))

/-- The `extend` action of `JenkinsNodeShell.main` (`cli.py` lines
436-448): select with the nest restriction disabled (`group=None`,
line 437), require exactly one candidate, then extend its reservation. -/
def extendAction (acting : String) (pattern : Option (String → Bool))
    (time : Nat) (force : Bool) (nodes : List NodeRecord) :
    Except CliError (List NodeRecord) :=
  requireOne (getNodes pattern none nodes) (fun node =>
    (node.extend_reservation time force acting).map
      (fun node' => updateMatched pattern none node' nodes))

/-- The `release` action of `JenkinsNodeShell.main` (`cli.py` lines
451-475): select with the nest restriction disabled (`group=None`,
line 452), require exactly one candidate; with `--pending` the node is
unconditionally marked for reprovisioning (lines 464-465); otherwise the
recorded reservation owner is compared to the Jenkins username and a
mismatch without `--force` is an ownership error (lines 467-473), else the
reservation is cleared (line 475). -/
def releaseAction (acting : String) (pattern : Option (String → Bool))
    (force onl pend : Bool) (nodes : List NodeRecord) :
    Except CliError (List NodeRecord) :=
  requireOne (getNodes pattern none nodes) (fun node =>
    if pend then
      Except.ok (updateMatched pattern none node.set_reprovision_pending nodes)
    else
      let reserveUser := node.get_reservation_owner
      if reserveUser ≠ some acting ∧ force = false then
        Except.error (CliError.ownership node.name reserveUser)
      else
        Except.ok (updateMatched pattern none
          (node.clear_reservation onl) nodes))

/-- The mutually exclusive group subcommand operations of `cli.py`
(lines 261-276): `--get`, `--clear`, `--set`, `--add`, `--remove`. -/
inductive GroupOp where
  | get : GroupOp
  | clear : GroupOp
  | set (gs : List String) : GroupOp
  | add (gs : List String) : GroupOp
  | remove (gs : List String) : GroupOp
deriving DecidableEq, Repr

/-- The `group` action of `JenkinsNodeShell.main` (`cli.py` lines
478-508): select with the nest restriction disabled (`group=None`,
line 479); `--get` aggregates the labels of all matched nodes with
duplicates collapsed (lines 482-486, `set(all_groups)`); every other
operation requires exactly one candidate (lines 488-494) and mutates its
groups (lines 496-508).  The payload is the aggregated group list for
`--get` and empty otherwise. -/
def groupAction (pattern : Option (String → Bool)) (op : GroupOp)
    (nodes : List NodeRecord) :
    Except CliError (List NodeRecord × List String) :=
  match op with
  | GroupOp.get =>
      Except.ok (nodes,
        ((getNodes pattern none nodes).flatMap (fun n => n.groups)).dedup)
  | op' =>
      requireOne (getNodes pattern none nodes) (fun node =>
        let node' :=
          match op' with
          | GroupOp.clear => node.clear_all_groups
          | GroupOp.set gs => node.update_with_groups gs
          | GroupOp.add gs => node.add_groups gs
          | GroupOp.remove gs => node.remove_groups gs
          | GroupOp.get => node
        Except.ok (updateMatched pattern none node' nodes, []))

/-- The `capability` action of `JenkinsNodeShell.main` (`cli.py` lines
511-517): select with the nest restriction disabled (`group=None`,
line 512) and apply the same capability patch to every matched node;
there is no arity check and an empty match mutates nothing. -/
def capabilityAction (pattern : Option (String → Bool))
    (patch : List (String × String)) (nodes : List NodeRecord) :
    Except CliError (List NodeRecord) :=
  Except.ok (applySel pattern none
    (fun n => n.update_capabilities patch) nodes)

/-! Sample registry snapshots used by the concrete witnesses. -/

/-- An online node with no reservation. -/
def sampleOnline : NodeRecord :=
  ⟨"lab-01", NodeStatus.online, ["shared"], [("cpu", "i7")], none⟩

/-- A node reserved by "alice". -/
def sampleReserved : NodeRecord :=
  ⟨"lab-02", NodeStatus.reserved, ["shared"], [("ram", "64")],
   some ⟨"alice", 1, 5⟩⟩

/-- A node currently running a CI job. -/
def sampleJob : NodeRecord :=
  ⟨"lab-03", NodeStatus.jobRunning, ["shared"], [], none⟩

/-! Helper lemmas. -/

theorem requireOne_singleton (node : NodeRecord)
    (k : NodeRecord → Except CliError α) : requireOne [node] k = k node := rfl

theorem requireOne_not_one (ms : List NodeRecord)
    (k : NodeRecord → Except CliError α) (h : ms.length ≠ 1) :
    requireOne ms k = Except.error (cardErr ms) := by
  cases ms with
  | nil => rfl
  | cons a t =>
    cases t with
    | nil => exact absurd rfl h
    | cons b t' => rfl

theorem getNodes_none_singleton (node : NodeRecord) :
    getNodes none none [node] = [node] := rfl

theorem isOk_except_map (g : α → β) (x : Except CliError α) :
    (x.map g).isOk = x.isOk := by
  cases x <;> rfl

/-- Lookup in the new-keys part of a capability merge: the entries of the
patch kept are exactly those whose key is absent from `caps`. -/
theorem lookup_filter_new (caps : List (String × String)) (k : String) :
    ∀ patch : List (String × String),
      (patch.filter (fun kv => (caps.lookup kv.1).isNone)).lookup k
        = if (caps.lookup k).isNone then patch.lookup k else none := by
  intro patch
  induction patch with
  | nil => cases h : (caps.lookup k).isNone <;> simp [List.lookup, h]
  | cons hd tl ih =>
    obtain ⟨a, w⟩ := hd
    by_cases hb : (caps.lookup a).isNone = true
    · rw [List.filter_cons_of_pos (by simpa using hb)]
      cases hk : (k == a) with
      | true =>
        have hka : k = a := by simpa using hk
        subst hka
        simp [List.lookup, hk, hb]
      | false =>
        simp [List.lookup, hk, ih]
    · rw [List.filter_cons_of_neg (by simpa using hb)]
      cases hk : (k == a) with
      | true =>
        have hka : k = a := by simpa using hk
        subst hka
        rw [ih]
        simp only [Bool.not_eq_true] at hb
        simp [List.lookup, hk, hb]
      | false =>
        rw [ih]
        cases h : (caps.lookup k).isNone <;> simp [List.lookup, hk, h]

/-- Lookup in the updated part of a capability merge: keys present in the
mapping stay present, taking the patch's value when patched. -/
theorem lookup_map_patch (patch : List (String × String)) (k : String) :
    ∀ caps : List (String × String),
      ((caps.map (fun kv =>
          match patch.lookup kv.1 with
          | some v => (kv.1, v)
          | none => kv)).lookup k)
        = (caps.lookup k).map (fun w => (patch.lookup k).getD w) := by
  intro caps
  induction caps with
  | nil => simp [List.lookup]
  | cons hd tl ih =>
    obtain ⟨a, w⟩ := hd
    cases hk : (k == a) with
    | true =>
      have hka : k = a := by simpa using hk
      subst hka
      cases hp : patch.lookup k <;> simp [List.lookup, hk, hp]
    | false =>
      cases hp : patch.lookup a <;> simp [List.lookup, hk, hp, ih]

theorem lookup_append_pairs (l₁ l₂ : List (String × String)) (k : String) :
    (l₁ ++ l₂).lookup k
      = match l₁.lookup k with
        | some v => some v
        | none => l₂.lookup k := by
  induction l₁ with
  | nil => simp [List.lookup]
  | cons hd tl ih =>
    obtain ⟨a, w⟩ := hd
    cases hk : (k == a) <;> simp [List.lookup, hk, ih]

/-- Merge semantics, unmentioned keys: a key absent from the patch keeps
its pre-merge value on every capability mapping. -/
theorem patchCaps_lookup_of_not_mem (caps patch : List (String × String))
    (k : String) (h : patch.lookup k = none) :
    (patchCaps caps patch).lookup k = caps.lookup k := by
  rw [patchCaps, lookup_append_pairs, lookup_map_patch, lookup_filter_new]
  cases hc : caps.lookup k with
  | some w => simp [h]
  | none => simp [h]

/-- Merge semantics, mentioned keys: a key carried by the patch ends up
with the patch's value on every capability mapping. -/
theorem patchCaps_lookup_of_mem (caps patch : List (String × String))
    (k : String) (v : String) (h : patch.lookup k = some v) :
    (patchCaps caps patch).lookup k = some v := by
  rw [patchCaps, lookup_append_pairs, lookup_map_patch, lookup_filter_new]
  cases hc : caps.lookup k with
  | some w => simp [h]
  | none => simp [h]

/-- With the nest restriction bypassed (`group = None`), selection reads
only the node's name: reassigning its groups cannot change it. -/
theorem selects_none_groups (pattern : Option (String → Bool))
    (gs : List String) (n : NodeRecord) :
    selects pattern none { n with groups := gs } = selects pattern none n :=
  rfl

/-- With the nest restriction bypassed, selection commutes with an
arbitrary reassignment of every node's groups. -/
theorem getNodes_none_map_groups (pattern : Option (String → Bool))
    (f : NodeRecord → List String) (nodes : List NodeRecord) :
    getNodes pattern none (nodes.map (fun n => { n with groups := f n }))
      = (getNodes pattern none nodes).map (fun n => { n with groups := f n }) := by
  simp only [getNodes, List.filter_map]
  congr 1

theorem extend_reservation_isOk_groups (n : NodeRecord) (gs : List String)
    (t : Nat) (force : Bool) (acting : String) :
    (({ n with groups := gs } : NodeRecord).extend_reservation t force acting).isOk
      = (n.extend_reservation t force acting).isOk := by
  have h1 : ({ n with groups := gs } : NodeRecord).reservation = n.reservation := rfl
  simp only [NodeRecord.extend_reservation, h1]
  cases hr : n.reservation with
  | none => rfl
  | some res =>
    by_cases hc : res.owner ≠ acting ∧ force = false
    · simp [hc.1, hc.2]
    · simp [hc, Except.isOk, Except.toBool]

/-- Claim C1: for every node carrying a reservation, `extend` and `release`
invoked without force raise `OwnershipError` exactly when the reservation's
owner string differs (case-sensitive exact comparison) from the acting
identity, and never raise an ownership error when the two strings are
equal. -/
theorem c1_ownership_exact (node : NodeRecord) (res : ReservationState)
    (acting : String) (hours : Nat) (onl : Bool)
    (h : node.reservation = some res) :
    (res.owner ≠ acting →
       releaseAction acting none false onl false [node]
         = Except.error (CliError.ownership node.name (some res.owner))
     ∧ extendAction acting none hours false [node]
         = Except.error (CliError.ownership node.name (some res.owner)))
  ∧ (res.owner = acting →
       (releaseAction acting none false onl false [node]).isOk = true
     ∧ (extendAction acting none hours false [node]).isOk = true) := by
  have hro : node.get_reservation_owner = some res.owner := by
    simp [NodeRecord.get_reservation_owner, h]
  constructor
  · intro hne
    constructor
    · simp only [releaseAction, getNodes_none_singleton, requireOne_singleton]
      simp [hro, hne]
    · simp only [extendAction, getNodes_none_singleton, requireOne_singleton,
        NodeRecord.extend_reservation, h]
      simp [hne, Except.map]
  · intro heq
    constructor
    · simp only [releaseAction, getNodes_none_singleton, requireOne_singleton]
      simp [hro, heq, Except.isOk, Except.toBool]
    · simp only [extendAction, getNodes_none_singleton, requireOne_singleton,
        NodeRecord.extend_reservation, h]
      simp [heq, Except.map, Except.isOk, Except.toBool]

/-- Claim C1 witness: "bob" cannot release the node reserved by "alice",
while "alice" extends it without an error. -/
theorem c1_witness :
    releaseAction "bob" none false false false [sampleReserved]
      = Except.error (CliError.ownership "lab-02" (some "alice"))
  ∧ (extendAction "alice" none 2 false [sampleReserved]).isOk = true := by
  constructor
  · exact ((c1_ownership_exact sampleReserved ⟨"alice", 1, 5⟩ "bob" 2 false
      rfl).1 (by decide)).1
  · exact ((c1_ownership_exact sampleReserved ⟨"alice", 1, 5⟩ "alice" 2 false
      rfl).2 rfl).2

/-- Claim C2: for every node whose status is JOB_RUNNING, reserve with
`force=false` raises `ConflictError` and performs no mutation, while
reserve with `force=true` records the reservation without raising
`ConflictError` (the externally observed status stays JOB_RUNNING). -/
theorem c2_force_job_running (node : NodeRecord) (acting : String)
    (now t : Nat) (owner : Option String)
    (h : node.status = NodeStatus.jobRunning) :
    reserveAction acting now none none t owner false [node]
      = Except.error (CliError.conflictJobRunning node.name)
  ∧ reserveAction acting now none none t owner true [node]
      = Except.ok ([{ node with
            reservation := some ⟨owner.getD acting, now, now + t⟩ }],
          ⟨owner.getD acting, node.name, now + t⟩) := by
  constructor
  · simp only [reserveAction, getNodes_none_singleton, requireOne_singleton]
    simp [h]
  · simp only [reserveAction, getNodes_none_singleton, requireOne_singleton]
    simp [h, NodeRecord.reserve, updateMatched, applySel, selects, matchesPat]

/-- Claim C2 witness: reserving the job-running node without force is a
conflict; with force the reservation is recorded. -/
theorem c2_witness :
    reserveAction "bob" 10 none none 3 none false [sampleJob]
      = Except.error (CliError.conflictJobRunning "lab-03")
  ∧ reserveAction "bob" 10 none none 3 none true [sampleJob]
      = Except.ok ([{ sampleJob with
            reservation := some ⟨"bob", 10, 13⟩ }],
          ⟨"bob", "lab-03", 13⟩) :=
  c2_force_job_running sampleJob "bob" 10 3 none rfl

/-- Claim C3: whenever the selector result does not have size exactly one,
reserve, extend, release and every mutating group operation fail with the
cardinality error that names the count and, when more than one node
matched, lists the candidates; `force` never bypasses the check and no
mutation occurs. -/
theorem c3_arity (acting : String) (now t : Nat) (owner : Option String)
    (pattern : Option (String → Bool)) (grp : Option String)
    (force onl pend : Bool) (gop : GroupOp) (nodes : List NodeRecord)
    (hg : gop ≠ GroupOp.get)
    (hr : (getNodes pattern grp nodes).length ≠ 1)
    (hn : (getNodes pattern none nodes).length ≠ 1) :
    reserveAction acting now pattern grp t owner force nodes
      = Except.error (cardErr (getNodes pattern grp nodes))
  ∧ extendAction acting pattern t force nodes
      = Except.error (cardErr (getNodes pattern none nodes))
  ∧ releaseAction acting pattern force onl pend nodes
      = Except.error (cardErr (getNodes pattern none nodes))
  ∧ groupAction pattern gop nodes
      = Except.error (cardErr (getNodes pattern none nodes)) := by
  refine ⟨?_, ?_, ?_, ?_⟩
  · exact requireOne_not_one _ _ hr
  · exact requireOne_not_one _ _ hn
  · exact requireOne_not_one _ _ hn
  · cases gop with
    | get => exact absurd rfl hg
    | clear => exact requireOne_not_one _ _ hn
    | set gs => exact requireOne_not_one _ _ hn
    | add gs => exact requireOne_not_one _ _ hn
    | remove gs => exact requireOne_not_one _ _ hn

/-- Claim C3 witness: with two matching nodes every mutating operation,
even with force, fails with the cardinality error naming count 2 and the
two candidates. -/
theorem c3_witness :
    reserveAction "alice" 0 none none 3 none true [sampleOnline, sampleJob]
      = Except.error (CliError.cardinality 2 ["lab-01", "lab-03"])
  ∧ extendAction "alice" none 3 true [sampleOnline, sampleJob]
      = Except.error (CliError.cardinality 2 ["lab-01", "lab-03"])
  ∧ releaseAction "alice" none true false false [sampleOnline, sampleJob]
      = Except.error (CliError.cardinality 2 ["lab-01", "lab-03"])
  ∧ groupAction none (GroupOp.set ["g"]) [sampleOnline, sampleJob]
      = Except.error (CliError.cardinality 2 ["lab-01", "lab-03"]) :=
  c3_arity "alice" 0 3 none none none true false false (GroupOp.set ["g"])
    [sampleOnline, sampleJob] (by decide) (by decide) (by decide)

/-- Claim C4 counterexample: releasing a node that carries no reservation,
without force, does not succeed: the recorded owner (absent) differs from
the acting identity, so the ownership error of `cli.py` lines 467-473 is
raised. -/
theorem c4_counterexample :
    releaseAction "alice" none false false false [sampleOnline]
      = Except.error (CliError.ownership "lab-01" none) := rfl

/-- Claim C4 (amended): releasing a node with no active reservation
(without `set_pending`) raises an ownership error when force is not
supplied, because the absent recorded owner differs from the acting
identity; with force it succeeds as a no-op that leaves the node's groups
and capabilities unchanged and its reservation empty. -/
theorem c4_release_unreserved (node : NodeRecord) (acting : String)
    (onl : Bool) (h : node.reservation = none) :
    releaseAction acting none false onl false [node]
      = Except.error (CliError.ownership node.name none)
  ∧ ∃ n', releaseAction acting none true onl false [node] = Except.ok [n']
      ∧ n'.groups = node.groups
      ∧ n'.capabilities = node.capabilities
      ∧ n'.reservation = none := by
  have hro : node.get_reservation_owner = none := by
    simp [NodeRecord.get_reservation_owner, h]
  constructor
  · simp only [releaseAction, getNodes_none_singleton, requireOne_singleton]
    simp [hro]
  · refine ⟨node.clear_reservation onl, ?_, rfl, rfl, rfl⟩
    simp only [releaseAction, getNodes_none_singleton, requireOne_singleton]
    simp [updateMatched, applySel, selects, matchesPat]

/-- Claim C4 witness: forced release of the unreserved online node keeps
its groups and capabilities. -/
theorem c4_witness :
    releaseAction "bob" none false false false [sampleOnline]
      = Except.error (CliError.ownership "lab-01" none)
  ∧ ∃ n', releaseAction "bob" none true false false [sampleOnline]
        = Except.ok [n']
      ∧ n'.groups = sampleOnline.groups
      ∧ n'.capabilities = sampleOnline.capabilities
      ∧ n'.reservation = none :=
  c4_release_unreserved sampleOnline "bob" false rfl

/-- Claim C5: for a node with status ONLINE and no reservation,
`reserve(N, 3, owner="alice", force=false)` succeeds, returns the
reservation info with owner "alice", the node's name and
`expires_at = now + 3`, and the node's status becomes RESERVED. -/
theorem c5_reserve_scenario (node : NodeRecord) (acting : String) (now : Nat)
    (h1 : node.status = NodeStatus.online) (h2 : node.reservation = none) :
    reserveAction acting now none none 3 (some "alice") false [node]
      = Except.ok ([{ node with
            status := NodeStatus.reserved
            reservation := some ⟨"alice", now, now + 3⟩ }],
          ⟨"alice", node.name, now + 3⟩) := by
  simp only [reserveAction, getNodes_none_singleton, requireOne_singleton]
  simp [h1, NodeRecord.reserve, updateMatched, applySel, selects, matchesPat]

/-- Claim C5 witness: the scenario run on the concrete online node. -/
theorem c5_witness :
    reserveAction "bob" 10 none none 3 (some "alice") false [sampleOnline]
      = Except.ok ([{ sampleOnline with
            status := NodeStatus.reserved
            reservation := some ⟨"alice", 10, 13⟩ }],
          ⟨"alice", "lab-01", 13⟩) :=
  c5_reserve_scenario sampleOnline "bob" 10 rfl rfl

/-- Claim C6: for every single-candidate release invocation with
`set_pending` requested, the node is unconditionally marked
REPROVISION_PENDING — for every acting identity and force value, no
ownership comparison happens and no ownership error can be raised, and the
reservation-clearing path is not taken (the reservation is untouched). -/
theorem c6_release_pending (node : NodeRecord) (acting : String)
    (pattern : Option (String → Bool)) (force onl : Bool)
    (nodes : List NodeRecord) (h : getNodes pattern none nodes = [node]) :
    releaseAction acting pattern force onl true nodes
      = Except.ok (updateMatched pattern none
          node.set_reprovision_pending nodes)
  ∧ node.set_reprovision_pending.status = NodeStatus.reprovisionPending
  ∧ node.set_reprovision_pending.reservation = node.reservation
  ∧ node.set_reprovision_pending.groups = node.groups := by
  refine ⟨?_, rfl, rfl, rfl⟩
  simp only [releaseAction, h, requireOne_singleton]
  simp

/-- Claim C6 witness: a pending release of the reserved node by a
non-owner without force succeeds and keeps its reservation. -/
theorem c6_witness :
    releaseAction "bob" none false false true [sampleReserved]
      = Except.ok (updateMatched none none
          sampleReserved.set_reprovision_pending [sampleReserved])
  ∧ sampleReserved.set_reprovision_pending.status
      = NodeStatus.reprovisionPending
  ∧ sampleReserved.set_reprovision_pending.reservation
      = sampleReserved.reservation
  ∧ sampleReserved.set_reprovision_pending.groups = sampleReserved.groups :=
  c6_release_pending sampleReserved "bob" none false false [sampleReserved]
    rfl

/-- Claim C7: the group get operation returns the union of the groups of
all matched nodes with duplicates collapsed (set semantics: membership in
the aggregate is membership in some matched node's groups and the
aggregate has no duplicates), and on an empty matched set it returns an
empty aggregate without raising an error. -/
theorem c7_group_get (pattern : Option (String → Bool))
    (nodes : List NodeRecord) (g : String) :
    ∃ agg, groupAction pattern GroupOp.get nodes = Except.ok (nodes, agg)
      ∧ agg.Nodup
      ∧ (g ∈ agg ↔ ∃ n, n ∈ getNodes pattern none nodes ∧ g ∈ n.groups)
      ∧ (getNodes pattern none nodes = [] → agg = []) := by
  refine ⟨_, rfl, List.nodup_dedup _, ?_, ?_⟩
  · simp [List.mem_dedup, List.mem_flatMap]
  · intro he
    simp [he]

/-- Claim C7 witness: the aggregate over the two sample shared nodes. -/
theorem c7_witness :
    ∃ agg, groupAction none GroupOp.get [sampleOnline, sampleReserved]
        = Except.ok ([sampleOnline, sampleReserved], agg)
      ∧ agg.Nodup
      ∧ ("shared" ∈ agg ↔ ∃ n,
            n ∈ getNodes none none [sampleOnline, sampleReserved]
          ∧ "shared" ∈ n.groups)
      ∧ (getNodes none none [sampleOnline, sampleReserved] = [] → agg = []) :=
  c7_group_get none [sampleOnline, sampleReserved] "shared"

/-- Claim C8: the capability set operation applies the same key-to-value
patch to each matched node independently (unmatched nodes untouched), as a
merge: keys not mentioned in the patch keep their value on every node and
keys mentioned in the patch take the patch's value. -/
theorem c8_capability_merge (pattern : Option (String → Bool))
    (patch : List (String × String)) (nodes : List NodeRecord)
    (k : String) :
    capabilityAction pattern patch nodes
      = Except.ok (nodes.map (fun n =>
          if selects pattern none n
          then { n with capabilities := patchCaps n.capabilities patch }
          else n))
  ∧ (∀ caps, patch.lookup k = none →
        (patchCaps caps patch).lookup k = caps.lookup k)
  ∧ (∀ caps v, patch.lookup k = some v →
        (patchCaps caps patch).lookup k = some v) := by
  refine ⟨rfl, ?_, ?_⟩
  · intro caps hk
    exact patchCaps_lookup_of_not_mem caps patch k hk
  · intro caps v hk
    exact patchCaps_lookup_of_mem caps patch k v hk

/-- Claim C8 witness: patching cpu on the two sample nodes: ram (not
mentioned) keeps its value, cpu takes the patched value. -/
theorem c8_witness :
    capabilityAction none [("cpu", "x86_64")] [sampleOnline, sampleReserved]
      = Except.ok ([sampleOnline, sampleReserved].map (fun n =>
          if selects none none n
          then { n with
                  capabilities := patchCaps n.capabilities
                    [("cpu", "x86_64")] }
          else n))
  ∧ (∀ caps, ([("cpu", "x86_64")] : List (String × String)).lookup "ram"
          = none →
        (patchCaps caps [("cpu", "x86_64")]).lookup "ram"
          = caps.lookup "ram")
  ∧ (∀ caps v, ([("cpu", "x86_64")] : List (String × String)).lookup "ram"
          = some v →
        (patchCaps caps [("cpu", "x86_64")]).lookup "ram" = some v) :=
  c8_capability_merge none [("cpu", "x86_64")] [sampleOnline, sampleReserved]
    "ram"

/-- Claim C10: a capability set invocation whose selector matches zero
nodes completes successfully as a silent no-op: no error is raised and no
node is mutated. -/
theorem c10_capability_empty (pattern : Option (String → Bool))
    (patch : List (String × String)) (nodes : List NodeRecord)
    (h : getNodes pattern none nodes = []) :
    capabilityAction pattern patch nodes = Except.ok nodes := by
  have hall : ∀ n ∈ nodes, selects pattern none n = false := by
    intro n hn
    simpa using List.filter_eq_nil_iff.mp h n hn
  simp only [capabilityAction, applySel]
  congr 1
  conv_rhs => rw [← List.map_id nodes]
  exact List.map_congr_left (fun n hn => by simp [hall n hn])

/-- Claim C10 witness: a selector matching no node leaves the registry
untouched. -/
theorem c10_witness :
    capabilityAction (some (fun s => s = "zzz")) [("cpu", "x86_64")]
        [sampleOnline, sampleReserved]
      = Except.ok [sampleOnline, sampleReserved] :=
  c10_capability_empty (some (fun s => s = "zzz")) [("cpu", "x86_64")]
    [sampleOnline, sampleReserved] rfl

/-- Claim C9: for extend, release, group and capability invocations,
candidate selection is performed with the nest restriction disabled
(`group=None`): membership in the candidate set is exactly name-regex
membership, selection commutes with any reassignment of every node's
groups (including removing the default "shared" nest), the observable
outcome (success or failure) of extend, release and group is invariant
under such reassignment, and capability targets nodes by name match
only. -/
theorem c9_nest_bypassed (pattern : Option (String → Bool))
    (nodes : List NodeRecord) (f : NodeRecord → List String)
    (acting : String) (t : Nat) (force onl pend : Bool)
    (patch : List (String × String)) (gop : GroupOp) (x : NodeRecord) :
    (x ∈ getNodes pattern none nodes
       ↔ x ∈ nodes ∧ matchesPat pattern x.name = true)
  ∧ getNodes pattern none (nodes.map (fun n => { n with groups := f n }))
      = (getNodes pattern none nodes).map (fun n => { n with groups := f n })
  ∧ (extendAction acting pattern t force
        (nodes.map (fun n => { n with groups := f n }))).isOk
      = (extendAction acting pattern t force nodes).isOk
  ∧ (releaseAction acting pattern force onl pend
        (nodes.map (fun n => { n with groups := f n }))).isOk
      = (releaseAction acting pattern force onl pend nodes).isOk
  ∧ (groupAction pattern gop
        (nodes.map (fun n => { n with groups := f n }))).isOk
      = (groupAction pattern gop nodes).isOk
  ∧ capabilityAction pattern patch nodes
      = Except.ok (nodes.map (fun n =>
          if matchesPat pattern n.name then n.update_capabilities patch
          else n)) := by
  refine ⟨?_, getNodes_none_map_groups pattern f nodes, ?_, ?_, ?_, ?_⟩
  · simp [getNodes, List.mem_filter, selects]
  · simp only [extendAction, getNodes_none_map_groups]
    generalize getNodes pattern none nodes = ms
    cases ms with
    | nil => rfl
    | cons a tl =>
      cases tl with
      | nil =>
        simp only [List.map_cons, List.map_nil, requireOne_singleton]
        rw [isOk_except_map, isOk_except_map]
        exact extend_reservation_isOk_groups a (f a) t force acting
      | cons b tl' => rfl
  · simp only [releaseAction, getNodes_none_map_groups]
    generalize getNodes pattern none nodes = ms
    cases ms with
    | nil => rfl
    | cons a tl =>
      cases tl with
      | nil =>
        simp only [List.map_cons, List.map_nil, requireOne_singleton]
        by_cases hp : pend
        · simp [hp, Except.isOk, Except.toBool]
        · have hro : ({ a with groups := f a } : NodeRecord).get_reservation_owner
              = a.get_reservation_owner := rfl
          by_cases hc : a.get_reservation_owner ≠ some acting ∧ force = false
          · simp [hp, hro, hc.1, hc.2, Except.isOk, Except.toBool]
          · simp [hp, hro, hc, Except.isOk, Except.toBool]
      | cons b tl' => rfl
  · cases gop with
    | get => rfl
    | clear =>
      simp only [groupAction, getNodes_none_map_groups]
      generalize getNodes pattern none nodes = ms
      cases ms with
      | nil => rfl
      | cons a tl => cases tl with
        | nil => rfl
        | cons b tl' => rfl
    | set gs =>
      simp only [groupAction, getNodes_none_map_groups]
      generalize getNodes pattern none nodes = ms
      cases ms with
      | nil => rfl
      | cons a tl => cases tl with
        | nil => rfl
        | cons b tl' => rfl
    | add gs =>
      simp only [groupAction, getNodes_none_map_groups]
      generalize getNodes pattern none nodes = ms
      cases ms with
      | nil => rfl
      | cons a tl => cases tl with
        | nil => rfl
        | cons b tl' => rfl
    | remove gs =>
      simp only [groupAction, getNodes_none_map_groups]
      generalize getNodes pattern none nodes = ms
      cases ms with
      | nil => rfl
      | cons a tl => cases tl with
        | nil => rfl
        | cons b tl' => rfl
  · simp only [capabilityAction, applySel, selects]
    simp

end Devnest
